import Mathlib

/-!
Verification of the hybrid memory retrieval engine of `src/memory.py`
(project INDRA).

The Python module is shallowly embedded: the SQLite tables backing
`DatabaseClient` become explicit Lean structures, the Zvec vector index
becomes a list of documents, and every operation of the memory engine is
translated into a pure Lean function that threads the state explicitly.
External effects that the source cannot decide (the FTS5 `MATCH`
predicate with its BM25 rank, the approximate-nearest-neighbour query of
Zvec, the FastEmbed embedding call, `uuid` generation and wall-clock
timestamps) are passed in as explicit oracle parameters, so every claim
is proved for all possible behaviours of those externals.
-/

namespace INDRA

/-- Timestamps: the source stores ISO-8601 strings from
`datetime.now(timezone.utc)`; successive calls produce (weakly) increasing
values.  The embedding models them as a logical clock `Nat` supplied by the
caller of each mutating operation (the source computes one fresh timestamp
per SQL statement batch). -/
abbrev Ts := Nat

/-- Embedding vectors (`List[float]` in the source) are modelled over `ℚ`. -/
abbrev Vec := List ℚ

/-- Model of one row of the `memory_items` table
(`src/memory.py` lines 113-126). `rowid` is SQLite's implicit rowid, used
as the FTS5 content rowid. `indexed` is the 0/1 flag as a `Bool`. -/
structure MemoryItem where
  rowid : Nat
  id : String
  kind : String
  text : String
  created_ts : Ts
  updated_ts : Ts
  confidence : ℚ
  source_thread_id : Option String
  status : String
  supersedes_id : Option String
  indexed : Bool
deriving Repr, DecidableEq

/-- Model of one entry of the `memory_fts` FTS5 shadow table
(`src/memory.py` lines 132-138): `(rowid, text, kind)` as inserted by
`insert_memory_item`. FTS5 does not enforce rowid uniqueness, so the
table is a list (duplicates possible). -/
structure FtsEntry where
  rowid : Nat
  text : String
  kind : String
deriving Repr, DecidableEq

/-- Model of the SQLite database owned by `DatabaseClient`: the
`memory_items` table in rowid order, the `memory_fts` shadow index, and
the next rowid SQLite would assign. (The `thread_history` and legacy
`memory_docs` tables play no role in the claims.) -/
structure Db where
  items : List MemoryItem
  fts : List FtsEntry
  nextRowid : Nat
deriving Repr, DecidableEq

/-- Model of `DatabaseClient.item_exists_by_text` (lines 181-191):
`SELECT id FROM memory_items WHERE text = ? AND status = 'active'`,
returning the first matching row's id (`fetchone`). -/
def item_exists_by_text (db : Db) (text : String) : Option String :=
  (db.items.find? (fun it => it.text == text && it.status == "active")).map (fun it => it.id)

/-- Model of `DatabaseClient.get_active_items_by_ids` (lines 193-206):
`SELECT id, kind, text FROM memory_items WHERE id IN (...) AND
status = 'active'`, rows in table order; `[]` on an empty id list. -/
def get_active_items_by_ids (db : Db) (item_ids : List String) : List MemoryItem :=
  if item_ids.isEmpty then []
  else db.items.filter (fun it => item_ids.contains it.id && it.status == "active")

/-- Model of `DatabaseClient.tombstone_by_content` (lines 208-221): for
each content, `UPDATE memory_items SET status = 'tombstoned',
updated_ts = ? WHERE text = ? AND status = 'active'`. The per-content
loop is equivalent to one pass over the rows, since tombstoning one
content never re-activates a row. -/
def tombstone_by_content (db : Db) (contents : List String) (now : Ts) : Db :=
  if contents.isEmpty then db
  else
    { db with items := db.items.map (fun it =>
        if contents.contains it.text && it.status == "active" then
          { it with status := "tombstoned", updated_ts := now }
        else it) }

/-- Model of `DatabaseClient.touch_item` (lines 223-230):
`UPDATE memory_items SET updated_ts = ? WHERE id = ?`. -/
def touch_item (db : Db) (item_id : String) (now : Ts) : Db :=
  { db with items := db.items.map (fun it =>
      if it.id == item_id then { it with updated_ts := now } else it) }

/-- Model of `DatabaseClient.insert_memory_item` (lines 232-247):
`INSERT OR IGNORE INTO memory_items (...) VALUES (..., 0)` followed
unconditionally by `INSERT INTO memory_fts (rowid, text, kind) SELECT
rowid, text, kind FROM memory_items WHERE id = ?` — the FTS insert runs
even when the row insert was ignored, appending the existing row's entry
again. -/
def insert_memory_item (db : Db) (item_id kind text : String)
    (source_thread_id : Option String) (now : Ts) : Db :=
  let db1 :=
    if db.items.any (fun it => it.id == item_id) then db
    else
      { db with
        items := db.items ++ [{
          rowid := db.nextRowid, id := item_id, kind := kind, text := text,
          created_ts := now, updated_ts := now, confidence := 1,
          source_thread_id := source_thread_id, status := "active",
          supersedes_id := none, indexed := false }],
        nextRowid := db.nextRowid + 1 }
  match db1.items.find? (fun it => it.id == item_id) with
  | some it => { db1 with fts := db1.fts ++ [{ rowid := it.rowid, text := it.text, kind := it.kind }] }
  | none => db1

/-- Model of `DatabaseClient.search_fts` (lines 249-269): the FTS5 join
`SELECT mi.* FROM memory_fts fts JOIN memory_items mi ON mi.rowid =
fts.rowid WHERE memory_fts MATCH ? AND mi.status = 'active' ORDER BY
rank LIMIT ?`. The `MATCH` predicate is external to the source and is
abstracted as `keywordMatch` over the indexed text; the BM25 `rank`
order is abstracted as the index order of the FTS entries. -/
def search_fts (db : Db) (keywordMatch : String → Bool) (limit : Nat) : List MemoryItem :=
  (db.fts.filterMap (fun e =>
    (db.items.find? (fun it => it.rowid == e.rowid)).bind (fun it =>
      if keywordMatch e.text && it.status == "active" then some it else none))).take limit

/-- Model of `DatabaseClient.fetch_pending_items` (lines 271-281):
`SELECT id, text FROM memory_items WHERE indexed = 0 AND
status = 'active' LIMIT ?`. -/
def fetch_pending_items (db : Db) (batch_size : Nat) : List MemoryItem :=
  (db.items.filter (fun it => it.indexed == false && it.status == "active")).take batch_size

/-- Model of `DatabaseClient.mark_items_indexed` (lines 283-291):
`UPDATE memory_items SET indexed = 1 WHERE id IN (...)`; no-op on an
empty id list. -/
def mark_items_indexed (db : Db) (item_ids : List String) : Db :=
  if item_ids.isEmpty then db
  else
    { db with items := db.items.map (fun it =>
        if item_ids.contains it.id then { it with indexed := true } else it) }

/-- Reserved sentinel id `HEALTH_ID = "__health_check__"`
(`src/memory.py` line 297). -/
def HEALTH_ID : String := "__health_check__"

/-- Embedding dimension of `BAAI/bge-small-en-v1.5` (line 315). -/
def dim : Nat := 384

/-- Fixed sentinel vector `[1.0] + [0.0] * (dim - 1)` (line 316). -/
def health_vector : Vec := (1 : ℚ) :: List.replicate (dim - 1) 0

/-- Model of one Zvec document: `zvec.Doc(id=..., vectors={"embedding": ...})`. -/
structure ZvecDoc where
  id : String
  embedding : Vec
deriving Repr, DecidableEq

/-- Model of a Zvec collection: the set of stored documents, in insertion
order.  `flush()` is a durability barrier with no observable effect in
the state model. -/
structure Collection where
  docs : List ZvecDoc
deriving Repr, DecidableEq

/-- Upsert of a single document: replace the document with the same id if
present, append otherwise. -/
def Collection.upsertOne (c : Collection) (d : ZvecDoc) : Collection :=
  if c.docs.any (fun e => e.id == d.id) then
    ⟨c.docs.map (fun e => if e.id == d.id then d else e)⟩
  else ⟨c.docs ++ [d]⟩

/-- Model of `Collection.upsert(docs)`: upsert each document in order. -/
def Collection.upsert (c : Collection) (ds : List ZvecDoc) : Collection :=
  ds.foldl Collection.upsertOne c

/-- Ids present in a collection. -/
def Collection.ids (c : Collection) : List String :=
  c.docs.map (fun d => d.id)

/-- Model of `ZvecMemoryStore._ensure_health_doc` (lines 327-332): fetch
the sentinel; if absent, upsert the sentinel document and flush. -/
def ensure_health_doc (c : Collection) : Collection :=
  if c.docs.any (fun d => d.id == HEALTH_ID) then c
  else c.upsert [⟨HEALTH_ID, health_vector⟩]

/-- Model of `ZvecMemoryStore._probe_integrity` (lines 334-342): the
sentinel must be fetchable and a top-1 query with the sentinel's own
vector must return the sentinel id.  The ANN query outcome is external
(`top1`, with `none` standing for a raised exception, caught to
`False`). -/
def probe_integrity (c : Collection) (top1 : Collection → Option String) : Bool :=
  c.docs.any (fun d => d.id == HEALTH_ID) && (top1 c == some HEALTH_ID)

/-- Result of opening one Zvec index inside `ZvecMemoryStore.initialize`:
the collection handle and whether the corrupt-index path ran. -/
structure CollOpen where
  coll : Collection
  wiped : Bool
deriving Repr, DecidableEq

/-- Model of the per-collection open protocol of `ZvecMemoryStore.initialize`
(lines 351-361 for the memory index, 368-376 for the skill index):
`zvec.open` (`openResult = none` models a raised exception), then
`_ensure_health_doc`, then `_probe_integrity`; any failure falls to the
except-branch `_wipe_and_recreate` + `_ensure_health_doc`, which yields a
fresh collection holding only the sentinel. -/
def open_one_index (openResult : Option Collection)
    (top1 : Collection → Option String) : CollOpen :=
  match openResult with
  | some c =>
    let c1 := ensure_health_doc c
    if probe_integrity c1 top1 then ⟨c1, false⟩
    else ⟨ensure_health_doc ⟨[]⟩, true⟩
  | none => ⟨ensure_health_doc ⟨[]⟩, true⟩

/-- Observable state of `ZvecMemoryStore` after `initialize`
(lines 344-376): both collection handles and the `_needs_rebuild` flag.
The flag starts `False` (line 309) and is set only in the memory index's
except-branch (line 361); the skill index's except-branch (lines 373-376)
does not touch it. -/
structure StoreState where
  collection : Option Collection
  skill_collection : Option Collection
  needs_rebuild : Bool
deriving Repr, DecidableEq

/-- Model of `ZvecMemoryStore.initialize` (lines 344-376). -/
def store_open_indexes (memOpen : Option Collection) (memTop1 : Collection → Option String)
    (skillOpen : Option Collection) (skillTop1 : Collection → Option String) : StoreState :=
  let m := open_one_index memOpen memTop1
  let s := open_one_index skillOpen skillTop1
  { collection := some m.coll, skill_collection := some s.coll, needs_rebuild := m.wiped }

/-- Model of one step of the Python dict update
`rrf_scores[item_id] = rrf_scores.get(item_id, 0.0) + inc`
(lines 418-422): an association list in dict insertion order. -/
def rrf_bump (scores : List (String × ℚ)) (item_id : String) (inc : ℚ) :
    List (String × ℚ) :=
  match scores with
  | [] => [(item_id, inc)]
  | (k, v) :: rest =>
    if k == item_id then (k, v + inc) :: rest
    else (k, v) :: rrf_bump rest item_id inc

/-- Model of one `for rank, item_id in enumerate(ranked)` accumulation loop
(lines 418-422), adding `1.0 / (60 + rank + 1)` per occurrence. -/
def rrf_accum (scores : List (String × ℚ)) (ranked : List String) (rank : Nat) :
    List (String × ℚ) :=
  match ranked with
  | [] => scores
  | item_id :: rest =>
    rrf_accum (rrf_bump scores item_id (1 / (60 + (rank : ℚ) + 1))) rest (rank + 1)

/-- Model of the full `rrf_scores` dict built in `get_relevant_context`
(lines 417-422): first the vector-ranked list, then the keyword-ranked
list. -/
def rrf_scores_of (zvec_ranked fts_ranked : List String) : List (String × ℚ) :=
  rrf_accum (rrf_accum [] zvec_ranked 0) fts_ranked 0

/-- Dict lookup `rrf_scores[x]` (0 default, matching `.get(x, 0.0)`). -/
def scoreOf (scores : List (String × ℚ)) (item_id : String) : ℚ :=
  ((scores.find? (fun p => p.1 == item_id)).map (fun p => p.2)).getD 0

/-- Model of
`sorted(rrf_scores.keys(), key=lambda x: rrf_scores[x], reverse=True)[:top_k]`
(line 424): a stable descending sort by score, then the first `top_k`. -/
def merged_ids_of (scores : List (String × ℚ)) (top_k : Nat) : List String :=
  ((scores.map (fun p => p.1)).mergeSort
    (fun a b => decide (scoreOf scores b ≤ scoreOf scores a))).take top_k

/-- Model of the Zvec candidate list of `get_relevant_context`
(lines 402-410): `topk` ANN results with the sentinel filtered out;
`none` models a raised `collection.query` exception, caught to `[]`. -/
def zvec_ranked_of (vecQuery : Collection → Vec → Nat → Option (List String))
    (coll : Collection) (vector : Vec) (topk : Nat) : List String :=
  match vecQuery coll vector topk with
  | some ids => ids.filter (fun i => i != HEALTH_ID)
  | none => []

/-- Fused candidate selection of `get_relevant_context` (lines 401-424):
vector candidates at `top_k * 2`, keyword candidates at `top_k * 2`,
RRF-merged and cut to `top_k`. -/
def retrieval_merged_ids (vecQuery : Collection → Vec → Nat → Option (List String))
    (coll : Collection) (vector : Vec) (db : Db) (keywordMatch : String → Bool)
    (top_k : Nat) : List String :=
  let zr := zvec_ranked_of vecQuery coll vector (top_k * 2)
  let fr := (search_fts db keywordMatch (top_k * 2)).map (fun it => it.id)
  merged_ids_of (rrf_scores_of zr fr) top_k

/-- Resolution step of `get_relevant_context` (line 430): the merged ids
resolved through the active-items lookup. -/
def retrieval_items (vecQuery : Collection → Vec → Nat → Option (List String))
    (coll : Collection) (vector : Vec) (db : Db) (keywordMatch : String → Bool)
    (top_k : Nat) : List MemoryItem :=
  get_active_items_by_ids db (retrieval_merged_ids vecQuery coll vector db keywordMatch top_k)

/-- Model of `ZvecMemoryStore.get_relevant_context` (lines 394-433).
`embedFn` is `self._embed` (returns `[]` when FastEmbed fails, line 390);
the subscript `(await self._embed([query]))[0]` on line 399 is outside
any `try`, so an empty embedding list raises `IndexError`, modelled as
`Except.error`. -/
def get_relevant_context (collection : Option Collection)
    (embedFn : List String → List Vec)
    (vecQuery : Collection → Vec → Nat → Option (List String))
    (db : Db) (keywordMatch : String → Bool)
    (query : String) (top_k : Nat) : Except String String :=
  match collection with
  | none => Except.ok ""
  | some coll =>
    match (embedFn [query]).head? with
    | none => Except.error "IndexError: list index out of range"
    | some vector =>
      let merged := retrieval_merged_ids vecQuery coll vector db keywordMatch top_k
      if merged.isEmpty then Except.ok ""
      else
        let items := get_active_items_by_ids db merged
        if items.isEmpty then Except.ok ""
        else Except.ok (String.intercalate "\n"
          (items.map (fun it => "- [" ++ it.kind ++ "] " ++ it.text)))

/-- Skill-name selection loop of `ZvecMemoryStore.get_relevant_skills`
(lines 448-465): skip the sentinel, skip scores below the threshold,
deduplicate preserving order, keep the first `top_k`. -/
def skill_names_of (results : List (String × ℚ)) (top_k : Nat) (threshold : ℚ) :
    List String :=
  (results.foldl (fun acc r =>
    if r.1 == HEALTH_ID then acc
    else if r.2 < threshold then acc
    else if acc.contains r.1 then acc
    else acc ++ [r.1]) []).take top_k

/-- Model of `ZvecMemoryStore.get_relevant_skills` (lines 435-486) up to
the selected skill names. Reading `skills/<name>/skill.md` and prompt
assembly (lines 471-482) are file I/O beyond the state model; both the
missing-collection path and the caught query-exception path (lines
484-486) select no skill names (they return fixed fallback strings).
Line 440 subscripts the embedding list outside the `try`, so an
embedding failure raises `IndexError` here too. -/
def get_relevant_skill_names (skill_collection : Option Collection)
    (embedFn : List String → List Vec)
    (vecQueryScored : Collection → Vec → Nat → Option (List (String × ℚ)))
    (query : String) (top_k : Nat) (threshold : ℚ) : Except String (List String) :=
  match skill_collection with
  | none => Except.ok []
  | some coll =>
    match (embedFn [query]).head? with
    | none => Except.error "IndexError: list index out of range"
    | some vector =>
      match vecQueryScored coll vector (top_k * 5) with
      | none => Except.ok []
      | some results => Except.ok (skill_names_of results top_k threshold)

/-- Model of the extractor output consumed by `apply_updates`
(`ExtractedMemory`, lines 37-42). -/
structure ExtractedMemoryModel where
  preferences : List String
  facts : List String
  corrections : List String
  obsolete_items : List String
  important : Bool
deriving Repr

/-- First vector-index hit accepted by the semantic-deduplication loop of
`apply_updates` (lines 520-525): first result whose id is not the
sentinel and whose score exceeds 0.92. -/
def semantic_dedup_hit (results : List (String × ℚ)) : Option String :=
  (results.find? (fun r => r.1 != HEALTH_ID && decide ((92 : ℚ) / 100 < r.2))).map
    (fun r => r.1)

/-- Semantic near-duplicate probe of `apply_updates` (lines 512-527):
embed the candidate text and query the vector index with `topk=3`; an
embedding failure (empty list, so the subscript on line 515 raises) or
a query exception is caught by the `except` on lines 526-527 and yields
no hit; a missing collection skips the check (line 513). -/
def dedup_check (embedFn : List String → List Vec)
    (vecQueryScored : Collection → Vec → Nat → Option (List (String × ℚ)))
    (collection : Option Collection) (text : String) : Option String :=
  match collection with
  | none => none
  | some coll =>
    match (embedFn [text]).head? with
    | none => none
    | some v =>
      match vecQueryScored coll v 3 with
      | none => none
      | some results => semantic_dedup_hit results

/-- Ingestion of one candidate text inside `apply_updates` (lines
504-534): exact-text check (touch and stop on hit), then the semantic
near-duplicate check `dedup_check` (touch and stop on a hit), else
insert a fresh `mem_<uuid>` item.  Fresh ids come from the stream
`freshIds` at the running counter. -/
def ingest_one (embedFn : List String → List Vec)
    (vecQueryScored : Collection → Vec → Nat → Option (List (String × ℚ)))
    (collection : Option Collection) (source_thread_id : Option String) (now : Ts)
    (freshIds : Nat → String) (st : Db × Nat) (kind text : String) : Db × Nat :=
  match item_exists_by_text st.1 text with
  | some existing_id => (touch_item st.1 existing_id now, st.2)
  | none =>
    match dedup_check embedFn vecQueryScored collection text with
    | some dup_id => (touch_item st.1 dup_id now, st.2)
    | none =>
      (insert_memory_item st.1 (freshIds st.2) kind text source_thread_id now, st.2 + 1)

/-- Model of `ZvecMemoryStore.apply_updates` (lines 488-537): tombstone
the obsolete texts, then ingest preferences as `pref`, facts as `fact`,
corrections as `rule`, in order.  The state is the database plus the
fresh-id counter. -/
def apply_updates (embedFn : List String → List Vec)
    (vecQueryScored : Collection → Vec → Nat → Option (List (String × ℚ)))
    (collection : Option Collection) (mem : ExtractedMemoryModel)
    (source_thread_id : Option String) (now : Ts) (freshIds : Nat → String)
    (st : Db × Nat) : Db × Nat :=
  let db1 := tombstone_by_content st.1 mem.obsolete_items now
  let kind_map := [(mem.preferences, "pref"), (mem.facts, "fact"), (mem.corrections, "rule")]
  kind_map.foldl (fun acc pair =>
      pair.1.foldl (fun acc2 text =>
        ingest_one embedFn vecQueryScored collection source_thread_id now freshIds
          acc2 pair.2 text) acc)
    (db1, st.2)

/-- Model of `ZvecMemoryStore.sync_pending_memories` (lines 539-570):
fetch a pending batch, embed it (`[]` aborts, lines 553-554), then under
the write lock `_ensure_health_doc` + `upsert` + `flush`; `upsertOk =
false` models an exception there, which logs and returns before
`mark_items_indexed` (lines 564-566). Only a successful flush is
followed by `mark_items_indexed`. -/
def sync_pending_memories (embedFn : List String → List Vec) (upsertOk : Bool)
    (db : Db) (collection : Option Collection) (batch_size : Nat) :
    Db × Option Collection :=
  match collection with
  | none => (db, none)
  | some coll =>
    let pending := fetch_pending_items db batch_size
    if pending.isEmpty then (db, some coll)
    else
      let texts := pending.map (fun r => r.text)
      let ids := pending.map (fun r => r.id)
      let vectors := embedFn texts
      if vectors.isEmpty then (db, some coll)
      else
        let docs := (ids.zip vectors).map (fun p => ZvecDoc.mk p.1 p.2)
        if upsertOk then
          (mark_items_indexed db ids, some ((ensure_health_doc coll).upsert docs))
        else (db, some coll)

/-- Model of `ZvecMemoryStore.rebuild_from_sqlite` (lines 572-612): read
all active `(id, text)` rows, embed, upsert + flush under the write lock
(`upsertOk = false` models an exception there, caught and only logged on
lines 607-608), and then — unconditionally, lines 610-612 —
`mark_items_indexed` on every fetched id and clear `_needs_rebuild`.
The returned `Bool` is the final `_needs_rebuild` value. -/
def rebuild_from_sqlite (embedFn : List String → List Vec) (upsertOk : Bool)
    (db : Db) (coll : Collection) : Db × Collection × Bool :=
  let rows := db.items.filter (fun it => it.status == "active")
  if rows.isEmpty then (db, coll, false)
  else
    let item_ids := rows.map (fun r => r.id)
    let texts := rows.map (fun r => r.text)
    let embeddings := embedFn texts
    let docs := (item_ids.zip embeddings).map (fun p => ZvecDoc.mk p.1 p.2)
    let coll1 := if upsertOk then coll.upsert docs else coll
    (mark_items_indexed db item_ids, coll1, false)

/-- Public mutating memory operations, as invoked by `MemoryGate.process`:
`apply_updates` (carrying the behaviour of its external oracles as
data), `tombstone_by_content` and `touch_item`. -/
inductive MemOp where
  | apply (embedFn : List String → List Vec)
      (vecQueryScored : Collection → Vec → Nat → Option (List (String × ℚ)))
      (collection : Option Collection) (mem : ExtractedMemoryModel)
      (source_thread_id : Option String) (now : Ts) (freshIds : Nat → String)
  | tombstone (texts : List String) (now : Ts)
  | touch (item_id : String) (now : Ts)

/-- Step of one public memory operation on the store state. -/
def run_op (st : Db × Nat) (op : MemOp) : Db × Nat :=
  match op with
  | MemOp.apply e q c m s n f => apply_updates e q c m s n f st
  | MemOp.tombstone texts now => (tombstone_by_content st.1 texts now, st.2)
  | MemOp.touch item_id now => (touch_item st.1 item_id now, st.2)

/-- Run of a sequence of public memory operations. -/
def run_ops (st : Db × Nat) (ops : List MemOp) : Db × Nat :=
  ops.foldl run_op st

/-- Spec §3 invariant: at most one `Active` item per exact `text` value. -/
def ActiveTextUnique (db : Db) : Prop :=
  (db.items.filter (fun it => it.status == "active")).Pairwise (fun a b => a.text ≠ b.text)

/-- Modelled from the spec's RRF description (§4.3 and claim C4):
`score(id) = Σ over lists containing id of 1 / (K + rank_in_list + 1)`
with `K = 60` and `rank_in_list` the 0-based position of the id in that
list.  Stated independently of the code's dict-fold so the two can be
compared. -/
def rrf_formula (zr fr : List String) (item_id : String) : ℚ :=
  (if item_id ∈ zr then 1 / (60 + (zr.indexOf item_id : ℚ) + 1) else 0) +
  (if item_id ∈ fr then 1 / (60 + (fr.indexOf item_id : ℚ) + 1) else 0)

/-! Concrete fixtures used by the closed counterexample and witness
theorems below. -/

/-- Embedding oracle that succeeds on every batch (one vector per text). -/
def exEmbed : List String → List Vec := fun ts => ts.map (fun _ => health_vector)

/-- Fixture: one active, not-yet-indexed memory item. -/
def exItem : MemoryItem :=
  { rowid := 1, id := "mem_000000000001", kind := "fact", text := "Lives in Seattle.",
    created_ts := 0, updated_ts := 0, confidence := 1, source_thread_id := none,
    status := "active", supersedes_id := none, indexed := false }

/-- Fixture: a database holding `exItem`, with its FTS entry in sync. -/
def exDb : Db := ⟨[exItem], [⟨1, "Lives in Seattle.", "fact"⟩], 2⟩

/-- Fixture: a healthy collection holding only the sentinel document. -/
def exColl : Collection := ensure_health_doc ⟨[]⟩

/-- Fixture: a skill collection holding the sentinel and one skill vector. -/
def exSkillColl : Collection := ⟨[⟨HEALTH_ID, health_vector⟩, ⟨"old_skill", health_vector⟩]⟩

/-- Fixture: the empty database (first rowid 1, as in SQLite). -/
def exEmptyDb : Db := ⟨[], [], 1⟩

/-- Fixture: a tombstoned memory item whose vector record may still
dangle in the index. -/
def exTombItem : MemoryItem :=
  { rowid := 2, id := "mem_ttt", kind := "fact", text := "Old fact.",
    created_ts := 0, updated_ts := 0, confidence := 1, source_thread_id := none,
    status := "tombstoned", supersedes_id := none, indexed := false }

/-- Fixture: a database holding one active pending item and one
tombstoned item (both with FTS entries, as the source leaves them). -/
def exDb2 : Db :=
  ⟨[exItem, exTombItem],
   [⟨1, "Lives in Seattle.", "fact"⟩, ⟨2, "Old fact.", "fact"⟩], 3⟩

/-- Row written by the `INSERT OR IGNORE` of `insert_memory_item`
(lines 238-241) when the id is fresh. -/
def inserted_row (db : Db) (item_id kind text : String) (src : Option String)
    (now : Ts) : MemoryItem :=
  { rowid := db.nextRowid, id := item_id, kind := kind, text := text,
    created_ts := now, updated_ts := now, confidence := 1, source_thread_id := src,
    status := "active", supersedes_id := none, indexed := false }

/-! Helper lemmas shared by several claims. -/

theorem map_self_of_fixes {α : Type} (f : α → α) (l : List α)
    (h : ∀ x ∈ l, f x = x) : l.map f = l := by
  rw [List.map_congr_left h]; exact List.map_id l

theorem foldl_inv {σ α : Type} (f : σ → α → σ) (P : σ → Prop)
    (hf : ∀ s a, P s → P (f s a)) : ∀ (l : List α) (s : σ), P s → P (l.foldl f s) := by
  intro l
  induction l with
  | nil => intro s hs; simpa using hs
  | cons a t ih => intro s hs; exact ih (f s a) (hf s a hs)

theorem mem_search_fts {db : Db} {m : String → Bool} {lim : Nat} {it : MemoryItem}
    (h : it ∈ search_fts db m lim) : it ∈ db.items ∧ it.status = "active" := by
  unfold search_fts at h
  have h1 := (List.take_sublist lim _).subset h
  rcases List.mem_filterMap.mp h1 with ⟨e, _, he⟩
  rcases Option.bind_eq_some.mp he with ⟨it', hfind, hif⟩
  have hit' := List.mem_of_find?_eq_some hfind
  by_cases hc : (m e.text && it'.status == "active") = true
  · rw [if_pos hc] at hif
    cases hif
    refine ⟨hit', ?_⟩
    have := (Bool.and_eq_true _ _).mp hc
    exact beq_iff_eq.mp this.2
  · rw [if_neg hc] at hif
    cases hif

theorem mem_get_active {db : Db} {ids : List String} {it : MemoryItem}
    (h : it ∈ get_active_items_by_ids db ids) :
    it ∈ db.items ∧ it.id ∈ ids ∧ it.status = "active" := by
  unfold get_active_items_by_ids at h
  by_cases hids : ids.isEmpty
  · rw [if_pos hids] at h; cases h
  · rw [if_neg hids] at h
    rcases List.mem_filter.mp h with ⟨hmem, hp⟩
    have := (Bool.and_eq_true _ _).mp hp
    exact ⟨hmem, by simpa using this.1, beq_iff_eq.mp this.2⟩

/-- C1: the claim says `get_relevant_context` never fails when the
embedding provider returns no vectors, degrading to keyword-only
retrieval.  The source contradicts it: line 399 subscripts the result of
`_embed` outside any `try`, so an empty embedding list (the documented
failure mode of `_embed`, lines 388-390) raises `IndexError` — even
though keyword candidates for the query existed (second conjunct), so a
keyword-only result was available.  `sync_pending_memories` (lines
553-554) shows the intended empty-check idiom that this call path
lacks. -/
theorem c1_embed_failure_raises :
    get_relevant_context (some exColl) (fun _ => []) (fun _ _ _ => some []) exDb
        (fun _ => true) "Where do I live?" 5 =
      Except.error "IndexError: list index out of range" ∧
    (search_fts exDb (fun _ => true) (5 * 2)).map (fun it => it.id) =
      ["mem_000000000001"] := by
  constructor
  · rfl
  · rfl

/-- C2: the claim says every upsert/flush failure in
`sync_pending_memories` and in `rebuild_from_sqlite` leaves the affected
items' `indexed` flag unchanged.  True for `sync_pending_memories`
(first conjunct: the flag of the one pending item stays `false`), but
`rebuild_from_sqlite` catches the upsert failure on lines 607-608 and
then still runs `mark_items_indexed` on every fetched id (lines
610-611): the flag flips to `true` (second conjunct), so the item is
never retried. -/
theorem c2_rebuild_failure_still_marks_indexed :
    ((sync_pending_memories exEmbed false exDb (some exColl) 256).1.items.map
        (fun it => it.indexed) = [false]) ∧
    ((rebuild_from_sqlite exEmbed false exDb exColl).1.items.map
        (fun it => it.indexed) = [true]) := by
  constructor
  · rfl
  · rfl

theorem insert_fresh_eq (db : Db) (item_id kind text : String) (src : Option String)
    (now : Ts) (hfresh : ∀ it ∈ db.items, it.id ≠ item_id) :
    insert_memory_item db item_id kind text src now =
      { items := db.items ++ [inserted_row db item_id kind text src now],
        fts := db.fts ++ [⟨db.nextRowid, text, kind⟩],
        nextRowid := db.nextRowid + 1 } := by
  have hany : db.items.any (fun it => it.id == item_id) = false := by
    rw [List.any_eq_false]; intro it hit; simpa using hfresh it hit
  have hnone : db.items.find? (fun it => it.id == item_id) = none := by
    rw [List.find?_eq_none]; intro it hit; simpa using hfresh it hit
  simp [insert_memory_item, hany, hnone, List.find?_append, inserted_row]

theorem insert_dup_eq (db : Db) (item_id kind text : String) (src : Option String)
    (t1 t2 : Ts) (hfresh : ∀ it ∈ db.items, it.id ≠ item_id) :
    insert_memory_item (insert_memory_item db item_id kind text src t1)
        item_id kind text src t2 =
      { items := (insert_memory_item db item_id kind text src t1).items,
        fts := (insert_memory_item db item_id kind text src t1).fts ++
          [⟨db.nextRowid, text, kind⟩],
        nextRowid := (insert_memory_item db item_id kind text src t1).nextRowid } := by
  rw [insert_fresh_eq db item_id kind text src t1 hfresh]
  have hnone : db.items.find? (fun it => it.id == item_id) = none := by
    rw [List.find?_eq_none]; intro it hit; simpa using hfresh it hit
  simp [insert_memory_item, hnone, List.find?_append, List.any_append, inserted_row]

theorem tombstone_fts_eq (db : Db) (contents : List String) (now : Ts) :
    (tombstone_by_content db contents now).fts = db.fts := by
  unfold tombstone_by_content; split <;> rfl

/-- C5 counterexample: the claim says a failed open-time probe raises
`needs_rebuild` for every collection, skills included.  Concrete run:
the memory index opens healthy, the skill index's probe query fails
(`top1 = none`); the skill index is wiped and recreated with only the
sentinel (second and third conjuncts show the wipe really ran), yet
`_needs_rebuild` stays `false`. -/
theorem c5_counterexample :
    (store_open_indexes (some exColl) (fun _ => some HEALTH_ID)
        (some exSkillColl) (fun _ => none)).needs_rebuild = false ∧
    (store_open_indexes (some exColl) (fun _ => some HEALTH_ID)
        (some exSkillColl) (fun _ => none)).skill_collection =
      some (ensure_health_doc ⟨[]⟩) ∧
    exSkillColl ≠ ensure_health_doc ⟨[]⟩ := by
  refine ⟨rfl, rfl, fun h => ?_⟩
  have := congrArg (fun c => c.docs.length) h
  simp [exSkillColl, ensure_health_doc, Collection.upsert, Collection.upsertOne] at this

/-- C5 amended: at open time a failed sentinel fetch or probe wipes the
affected index and recreates it empty with the sentinel rewritten, for
the memory and the skill collection alike; but `needs_rebuild` is raised
only for the memory collection (line 361) — the skill index's
except-branch (lines 373-376) does not touch the flag, which always
equals the memory index's wipe outcome. -/
theorem c5_amended (memOpen skillOpen : Option Collection)
    (memTop1 skillTop1 : Collection → Option String) :
    (store_open_indexes memOpen memTop1 skillOpen skillTop1).needs_rebuild =
      (open_one_index memOpen memTop1).wiped ∧
    (∀ c, memOpen = some c → probe_integrity (ensure_health_doc c) memTop1 = false →
      (store_open_indexes memOpen memTop1 skillOpen skillTop1).collection =
          some (ensure_health_doc ⟨[]⟩) ∧
        (store_open_indexes memOpen memTop1 skillOpen skillTop1).needs_rebuild = true) ∧
    (memOpen = none →
      (store_open_indexes memOpen memTop1 skillOpen skillTop1).collection =
          some (ensure_health_doc ⟨[]⟩) ∧
        (store_open_indexes memOpen memTop1 skillOpen skillTop1).needs_rebuild = true) ∧
    (∀ c, skillOpen = some c → probe_integrity (ensure_health_doc c) skillTop1 = false →
      (store_open_indexes memOpen memTop1 skillOpen skillTop1).skill_collection =
        some (ensure_health_doc ⟨[]⟩)) ∧
    (skillOpen = none →
      (store_open_indexes memOpen memTop1 skillOpen skillTop1).skill_collection =
        some (ensure_health_doc ⟨[]⟩)) := by
  refine ⟨rfl, ?_, ?_, ?_, ?_⟩
  · rintro c rfl hprobe
    simp [store_open_indexes, open_one_index, hprobe]
  · rintro rfl
    simp [store_open_indexes, open_one_index]
  · rintro c rfl hprobe
    simp [store_open_indexes, open_one_index, hprobe]
  · rintro rfl
    simp [store_open_indexes, open_one_index]

theorem c5_amended_witness :
    (store_open_indexes (some exSkillColl) (fun _ => none)
        (some exSkillColl) (fun _ => none)).needs_rebuild = true ∧
    (store_open_indexes (some exSkillColl) (fun _ => none)
        (some exSkillColl) (fun _ => none)).collection =
      some (ensure_health_doc ⟨[]⟩) ∧
    (store_open_indexes (some exSkillColl) (fun _ => none)
        (some exSkillColl) (fun _ => none)).skill_collection =
      some (ensure_health_doc ⟨[]⟩) := by
  have h := c5_amended (some exSkillColl) (some exSkillColl) (fun _ => none) (fun _ => none)
  have hm := h.2.1 exSkillColl rfl rfl
  exact ⟨hm.2, hm.1, h.2.2.2.1 exSkillColl rfl rfl⟩

/-- C7 counterexample: the claim says a second `insert_memory_item` with
the same id leaves both the items table and the FTS shadow index
unchanged.  Concrete run from the empty database: the items table is
indeed unchanged, but the FTS shadow index is not — the unconditional
`INSERT INTO memory_fts ... SELECT ... WHERE id = ?` (lines 243-246)
appends the existing row's entry a second time. -/
theorem c7_counterexample :
    (insert_memory_item (insert_memory_item exEmptyDb "mem_a" "fact" "hello" none 1)
        "mem_a" "fact" "hello" none 2).items =
      (insert_memory_item exEmptyDb "mem_a" "fact" "hello" none 1).items ∧
    (insert_memory_item (insert_memory_item exEmptyDb "mem_a" "fact" "hello" none 1)
        "mem_a" "fact" "hello" none 2).fts ≠
      (insert_memory_item exEmptyDb "mem_a" "fact" "hello" none 1).fts := by
  exact ⟨rfl, by decide⟩

/-- C7 amended: calling `insert_memory_item` twice with the same id
leaves the items table (and the next rowid) unchanged on the second
call, but appends a duplicate `(rowid, text, kind)` entry to the FTS
shadow index; the first call appends the row with `indexed = 0`
(`inserted_row`) and synchronously adds its FTS entry. -/
theorem c7_amended (db : Db) (item_id kind text : String) (src : Option String)
    (t1 t2 : Ts) (hfresh : ∀ it ∈ db.items, it.id ≠ item_id) :
    (insert_memory_item db item_id kind text src t1).items =
      db.items ++ [inserted_row db item_id kind text src t1] ∧
    (inserted_row db item_id kind text src t1).indexed = false ∧
    (insert_memory_item db item_id kind text src t1).fts =
      db.fts ++ [⟨db.nextRowid, text, kind⟩] ∧
    (insert_memory_item (insert_memory_item db item_id kind text src t1)
        item_id kind text src t2).items =
      (insert_memory_item db item_id kind text src t1).items ∧
    (insert_memory_item (insert_memory_item db item_id kind text src t1)
        item_id kind text src t2).nextRowid =
      (insert_memory_item db item_id kind text src t1).nextRowid ∧
    (insert_memory_item (insert_memory_item db item_id kind text src t1)
        item_id kind text src t2).fts =
      (insert_memory_item db item_id kind text src t1).fts ++
        [⟨db.nextRowid, text, kind⟩] := by
  have h1 := insert_fresh_eq db item_id kind text src t1 hfresh
  have h2 := insert_dup_eq db item_id kind text src t1 t2 hfresh
  refine ⟨by rw [h1], rfl, by rw [h1], by rw [h2], by rw [h2], by rw [h2]⟩

theorem c7_amended_witness :
    (insert_memory_item exEmptyDb "mem_a" "fact" "hello" none 1).items =
      exEmptyDb.items ++ [inserted_row exEmptyDb "mem_a" "fact" "hello" none 1] ∧
    (inserted_row exEmptyDb "mem_a" "fact" "hello" none 1).indexed = false ∧
    (insert_memory_item exEmptyDb "mem_a" "fact" "hello" none 1).fts =
      exEmptyDb.fts ++ [⟨exEmptyDb.nextRowid, "hello", "fact"⟩] ∧
    (insert_memory_item (insert_memory_item exEmptyDb "mem_a" "fact" "hello" none 1)
        "mem_a" "fact" "hello" none 2).items =
      (insert_memory_item exEmptyDb "mem_a" "fact" "hello" none 1).items ∧
    (insert_memory_item (insert_memory_item exEmptyDb "mem_a" "fact" "hello" none 1)
        "mem_a" "fact" "hello" none 2).nextRowid =
      (insert_memory_item exEmptyDb "mem_a" "fact" "hello" none 1).nextRowid ∧
    (insert_memory_item (insert_memory_item exEmptyDb "mem_a" "fact" "hello" none 1)
        "mem_a" "fact" "hello" none 2).fts =
      (insert_memory_item exEmptyDb "mem_a" "fact" "hello" none 1).fts ++
        [⟨exEmptyDb.nextRowid, "hello", "fact"⟩] :=
  c7_amended exEmptyDb "mem_a" "fact" "hello" none 1 2 (by decide)

/-- C8 counterexample: the claim says a tombstone operation removes or
excludes the item's entry from the keyword-search shadow index as part
of the operation.  Concrete run: after inserting "hello" and
tombstoning it, the `memory_fts` table is bit-for-bit unchanged and
still contains the item's entry — `tombstone_by_content` (lines
208-221) never touches `memory_fts`. -/
theorem c8_counterexample :
    (tombstone_by_content (insert_memory_item exEmptyDb "mem_a" "fact" "hello" none 1)
        ["hello"] 5).fts =
      (insert_memory_item exEmptyDb "mem_a" "fact" "hello" none 1).fts ∧
    (⟨1, "hello", "fact"⟩ : FtsEntry) ∈
      (tombstone_by_content (insert_memory_item exEmptyDb "mem_a" "fact" "hello" none 1)
        ["hello"] 5).fts ∧
    (∀ it ∈ (tombstone_by_content
        (insert_memory_item exEmptyDb "mem_a" "fact" "hello" none 1) ["hello"] 5).items,
      it.status = "tombstoned") := by
  exact ⟨rfl, by decide, by decide⟩

/-- C8 amended: an insert (of a fresh id) synchronously adds the item's
`(rowid, text, kind)` entry to the FTS shadow index; the tombstone
operation leaves the FTS table itself untouched — tombstoned items are
instead excluded from keyword-search results at query time by the
`status = 'active'` filter of `search_fts`. -/
theorem c8_amended :
    (∀ (db : Db) (item_id kind text : String) (src : Option String) (now : Ts),
      (∀ it ∈ db.items, it.id ≠ item_id) →
      (insert_memory_item db item_id kind text src now).fts =
        db.fts ++ [⟨db.nextRowid, text, kind⟩]) ∧
    (∀ (db : Db) (contents : List String) (now : Ts),
      (tombstone_by_content db contents now).fts = db.fts) ∧
    (∀ (db : Db) (m : String → Bool) (lim : Nat) (it : MemoryItem),
      it ∈ search_fts db m lim → it.status = "active") := by
  refine ⟨?_, ?_, ?_⟩
  · intro db item_id kind text src now hfresh
    rw [insert_fresh_eq db item_id kind text src now hfresh]
  · intro db contents now
    exact tombstone_fts_eq db contents now
  · intro db m lim it hit
    exact (mem_search_fts hit).2

theorem c8_amended_witness :
    (insert_memory_item exEmptyDb "mem_a" "fact" "hello" none 1).fts =
      exEmptyDb.fts ++ [⟨exEmptyDb.nextRowid, "hello", "fact"⟩] ∧
    (tombstone_by_content exDb ["Lives in Seattle."] 7).fts = exDb.fts ∧
    (exItem ∈ search_fts exDb (fun _ => true) 10 → exItem.status = "active") := by
  have h := c8_amended
  exact ⟨h.1 exEmptyDb "mem_a" "fact" "hello" none 1 (by decide),
    h.2.1 exDb ["Lives in Seattle."] 7,
    fun hm => h.2.2 exDb (fun _ => true) 10 exItem hm⟩

theorem scoreOf_nil (j : String) : scoreOf [] j = 0 := rfl

theorem scoreOf_cons (k : String) (v : ℚ) (tl : List (String × ℚ)) (j : String) :
    scoreOf ((k, v) :: tl) j = if k = j then v else scoreOf tl j := by
  by_cases h : k = j
  · subst h
    simp only [scoreOf, if_pos rfl]
    rw [List.find?_cons_of_pos _ (by simp)]
    rfl
  · simp only [scoreOf, if_neg h]
    rw [List.find?_cons_of_neg _ (by simpa using h)]

theorem scoreOf_rrf_bump (s : List (String × ℚ)) (item_id j : String) (inc : ℚ) :
    scoreOf (rrf_bump s item_id inc) j =
      if j = item_id then scoreOf s j + inc else scoreOf s j := by
  induction s with
  | nil =>
    unfold rrf_bump
    by_cases h : j = item_id
    · subst h; rw [scoreOf_cons, if_pos rfl, scoreOf_nil, if_pos rfl, zero_add]
    · rw [scoreOf_cons, if_neg (fun h' => h h'.symm), if_neg h]
  | cons hd tl ih =>
    obtain ⟨k, v⟩ := hd
    unfold rrf_bump
    simp only [beq_iff_eq]
    by_cases hk : k = item_id
    · subst hk
      rw [if_pos rfl]
      by_cases hj : j = k
      · subst hj; rw [scoreOf_cons, if_pos rfl, scoreOf_cons, if_pos rfl, if_pos rfl]
      · rw [scoreOf_cons, if_neg (fun h' => hj h'.symm), if_neg hj, scoreOf_cons,
          if_neg (fun h' => hj h'.symm)]
    · rw [if_neg hk]
      by_cases hj : j = k
      · subst hj
        simp [scoreOf_cons, if_neg hk]
      · have hkj : ¬k = j := fun h' => hj h'.symm
        by_cases hji : j = item_id
        · simp only [scoreOf_cons, if_neg hkj, ih, if_pos hji]
        · simp only [scoreOf_cons, if_neg hkj, ih, if_neg hji]

theorem keys_rrf_bump (s : List (String × ℚ)) (item_id : String) (inc : ℚ) :
    (rrf_bump s item_id inc).map Prod.fst =
      if item_id ∈ s.map Prod.fst then s.map Prod.fst
      else s.map Prod.fst ++ [item_id] := by
  induction s with
  | nil => simp [rrf_bump]
  | cons hd tl ih =>
    obtain ⟨k, v⟩ := hd
    unfold rrf_bump
    simp only [beq_iff_eq]
    by_cases hk : k = item_id
    · subst hk; simp
    · rw [if_neg hk]
      have hik : ¬item_id = k := fun h => hk h.symm
      by_cases hmem : item_id ∈ tl.map Prod.fst
      · simp only [List.map_cons, ih, if_pos hmem]
        rw [if_pos (by simp [List.mem_cons, hmem])]
      · simp only [List.map_cons, ih, if_neg hmem]
        rw [if_neg (by simp [List.mem_cons, hmem, hik])]
        simp

theorem mem_keys_rrf_bump (s : List (String × ℚ)) (item_id j : String) (inc : ℚ) :
    j ∈ (rrf_bump s item_id inc).map Prod.fst ↔
      j ∈ s.map Prod.fst ∨ j = item_id := by
  rw [keys_rrf_bump]
  by_cases hmem : item_id ∈ s.map Prod.fst
  · rw [if_pos hmem]
    constructor
    · exact fun h => Or.inl h
    · rintro (h | rfl)
      · exact h
      · exact hmem
  · rw [if_neg hmem]
    simp

theorem scoreOf_rrf_accum (ranked : List String) :
    ∀ (s : List (String × ℚ)) (r : Nat) (j : String), ranked.Nodup →
    scoreOf (rrf_accum s ranked r) j =
      scoreOf s j +
        (if j ∈ ranked then 1 / (60 + ((r + ranked.indexOf j : Nat) : ℚ) + 1) else 0) := by
  induction ranked with
  | nil => intro s r j _; simp [rrf_accum]
  | cons a rest ih =>
    intro s r j hnd
    rw [rrf_accum, ih _ _ _ (List.nodup_cons.mp hnd).2, scoreOf_rrf_bump]
    by_cases hj : j = a
    · subst hj
      have hnotin : j ∉ rest := (List.nodup_cons.mp hnd).1
      simp only [if_pos rfl, hnotin, if_neg, List.mem_cons, true_or, if_true,
        List.indexOf_cons_self]
      simp [hnotin]
    · by_cases hmem : j ∈ rest
      · have hidx : (a :: rest).indexOf j = (rest.indexOf j).succ :=
          List.indexOf_cons_ne rest (fun h => hj (Eq.symm h))
        simp only [if_neg hj, List.mem_cons, hmem, or_true, if_true, hidx]
        have : ((r + (rest.indexOf j).succ : Nat) : ℚ) = ((r + 1 + rest.indexOf j : Nat) : ℚ) := by
          push_cast; ring
        rw [this]
      · simp [hj, hmem]

theorem mem_keys_rrf_accum (ranked : List String) :
    ∀ (s : List (String × ℚ)) (r : Nat) (j : String),
    (j ∈ (rrf_accum s ranked r).map Prod.fst ↔ j ∈ s.map Prod.fst ∨ j ∈ ranked) := by
  induction ranked with
  | nil => intro s r j; simp [rrf_accum]
  | cons a rest ih =>
    intro s r j
    rw [rrf_accum, ih, mem_keys_rrf_bump]
    simp [List.mem_cons]; tauto

theorem scoreOf_rrf_scores_of (zr fr : List String) (j : String)
    (hz : zr.Nodup) (hf : fr.Nodup) :
    scoreOf (rrf_scores_of zr fr) j = rrf_formula zr fr j := by
  unfold rrf_scores_of rrf_formula
  rw [scoreOf_rrf_accum fr _ _ _ hf, scoreOf_rrf_accum zr _ _ _ hz]
  have h0 : scoreOf [] j = 0 := rfl
  rw [h0]
  split_ifs <;> push_cast <;> ring

theorem mem_keys_rrf_scores_of (zr fr : List String) (j : String) :
    j ∈ (rrf_scores_of zr fr).map Prod.fst ↔ j ∈ zr ∨ j ∈ fr := by
  unfold rrf_scores_of
  rw [mem_keys_rrf_accum, mem_keys_rrf_accum]
  simp

theorem merged_ids_of_spec (scores : List (String × ℚ)) (k : Nat) :
    (merged_ids_of scores k).Pairwise
      (fun a b => scoreOf scores b ≤ scoreOf scores a) ∧
    (∀ a ∈ merged_ids_of scores k, a ∈ scores.map Prod.fst) ∧
    (merged_ids_of scores k).length = min k (scores.map Prod.fst).length ∧
    (∀ a ∈ merged_ids_of scores k, ∀ b ∈ scores.map Prod.fst,
      b ∉ merged_ids_of scores k → scoreOf scores b ≤ scoreOf scores a) := by
  have htrans : ∀ a b c : String,
      (fun a b => decide (scoreOf scores b ≤ scoreOf scores a)) a b = true →
      (fun a b => decide (scoreOf scores b ≤ scoreOf scores a)) b c = true →
      (fun a b => decide (scoreOf scores b ≤ scoreOf scores a)) a c = true := by
    intro a b c hab hbc
    simp only [decide_eq_true_iff] at *
    exact le_trans hbc hab
  have htotal : ∀ a b : String,
      ((fun a b => decide (scoreOf scores b ≤ scoreOf scores a)) a b ||
       (fun a b => decide (scoreOf scores b ≤ scoreOf scores a)) b a) = true := by
    intro a b
    simp only [Bool.or_eq_true, decide_eq_true_iff]
    exact (le_total (scoreOf scores b) (scoreOf scores a))
  have hsorted := @List.sorted_mergeSort String
    (fun a b => decide (scoreOf scores b ≤ scoreOf scores a))
    htrans htotal (scores.map Prod.fst)
  have hperm := List.mergeSort_perm (scores.map Prod.fst)
    (fun a b => decide (scoreOf scores b ≤ scoreOf scores a))
  have hsorted' : ((scores.map Prod.fst).mergeSort
      (fun a b => decide (scoreOf scores b ≤ scoreOf scores a))).Pairwise
      (fun a b => scoreOf scores b ≤ scoreOf scores a) :=
    hsorted.imp (fun h => by simpa using h)
  refine ⟨?_, ?_, ?_, ?_⟩
  · exact hsorted'.take
  · intro a ha
    have := (List.take_sublist k _).subset ha
    exact hperm.mem_iff.mp (List.mem_mergeSort.mpr (hperm.mem_iff.mp this))
  · unfold merged_ids_of
    rw [List.length_take, hperm.length_eq]
  · intro a ha b hb hbnot
    have hbsort : b ∈ (scores.map Prod.fst).mergeSort
        (fun a b => decide (scoreOf scores b ≤ scoreOf scores a)) :=
      List.mem_mergeSort.mpr hb
    have hsplit := List.take_append_drop k ((scores.map Prod.fst).mergeSort
      (fun a b => decide (scoreOf scores b ≤ scoreOf scores a)))
    have hbdrop : b ∈ ((scores.map Prod.fst).mergeSort
        (fun a b => decide (scoreOf scores b ≤ scoreOf scores a))).drop k := by
      rcases (List.mem_append.mp (by rw [hsplit]; exact hbsort)) with h | h
      · exact absurd h hbnot
      · exact h
    have hpw : (((scores.map Prod.fst).mergeSort
        (fun a b => decide (scoreOf scores b ≤ scoreOf scores a))).take k ++
        ((scores.map Prod.fst).mergeSort
        (fun a b => decide (scoreOf scores b ≤ scoreOf scores a))).drop k).Pairwise
        (fun a b => scoreOf scores b ≤ scoreOf scores a) := by
      rw [hsplit]; exact hsorted'
    exact (List.pairwise_append.mp hpw).2.2 a ha b hbdrop

/-- C4: fused retrieval gathers `2k` vector candidates and `2k` keyword
candidates independently (recorded by the definitional equation for
`merged`, whose candidate lists are taken at `top_k * 2`), assigns every
candidate id the claimed RRF score `Σ 1 / (60 + rank + 1)` over the
lists containing it, sorts by that score descending, keeps the top `k`,
and resolves the kept ids through the active-items-by-ids lookup.
Candidate lists are assumed duplicate-free (each ranker returns each id
at most once). -/
theorem c4_rrf_fusion
    (vecQuery : Collection → Vec → Nat → Option (List String))
    (coll : Collection) (vector : Vec) (db : Db)
    (keywordMatch : String → Bool) (top_k : Nat)
    (hz : (zvec_ranked_of vecQuery coll vector (top_k * 2)).Nodup)
    (hf : ((search_fts db keywordMatch (top_k * 2)).map (fun it => it.id)).Nodup) :
    let zr := zvec_ranked_of vecQuery coll vector (top_k * 2)
    let fr := (search_fts db keywordMatch (top_k * 2)).map (fun it => it.id)
    let scores := rrf_scores_of zr fr
    let merged := retrieval_merged_ids vecQuery coll vector db keywordMatch top_k
    merged = merged_ids_of scores top_k ∧
    (∀ j, j ∈ scores.map Prod.fst ↔ j ∈ zr ∨ j ∈ fr) ∧
    (∀ j ∈ scores.map Prod.fst, scoreOf scores j = rrf_formula zr fr j) ∧
    merged.Pairwise (fun a b => scoreOf scores b ≤ scoreOf scores a) ∧
    merged.length = min top_k (scores.map Prod.fst).length ∧
    (∀ a ∈ merged, a ∈ scores.map Prod.fst) ∧
    (∀ a ∈ merged, ∀ b ∈ scores.map Prod.fst, b ∉ merged →
      scoreOf scores b ≤ scoreOf scores a) ∧
    retrieval_items vecQuery coll vector db keywordMatch top_k =
      get_active_items_by_ids db merged := by
  intro zr fr scores merged
  obtain ⟨h1, h2, h3, h4⟩ := merged_ids_of_spec scores top_k
  exact ⟨rfl, fun j => mem_keys_rrf_scores_of zr fr j,
    fun j _ => scoreOf_rrf_scores_of zr fr j hz hf, h1, h3, h2, h4, rfl⟩

theorem c4_rrf_fusion_witness :
    (zvec_ranked_of (fun _ _ _ => some ["mem_ttt", HEALTH_ID, "mem_000000000001"])
        exColl health_vector (2 * 2)).Nodup ∧
    ((search_fts exDb2 (fun _ => true) (2 * 2)).map (fun it => it.id)).Nodup ∧
    (let zr := zvec_ranked_of (fun _ _ _ => some ["mem_ttt", HEALTH_ID, "mem_000000000001"])
        exColl health_vector (2 * 2)
     let fr := (search_fts exDb2 (fun _ => true) (2 * 2)).map (fun it => it.id)
     let scores := rrf_scores_of zr fr
     let merged := retrieval_merged_ids
        (fun _ _ _ => some ["mem_ttt", HEALTH_ID, "mem_000000000001"])
        exColl health_vector exDb2 (fun _ => true) 2
     merged = merged_ids_of scores 2 ∧
     (∀ j, j ∈ scores.map Prod.fst ↔ j ∈ zr ∨ j ∈ fr) ∧
     (∀ j ∈ scores.map Prod.fst, scoreOf scores j = rrf_formula zr fr j) ∧
     merged.Pairwise (fun a b => scoreOf scores b ≤ scoreOf scores a) ∧
     merged.length = min 2 (scores.map Prod.fst).length ∧
     (∀ a ∈ merged, a ∈ scores.map Prod.fst) ∧
     (∀ a ∈ merged, ∀ b ∈ scores.map Prod.fst, b ∉ merged →
       scoreOf scores b ≤ scoreOf scores a) ∧
     retrieval_items (fun _ _ _ => some ["mem_ttt", HEALTH_ID, "mem_000000000001"])
        exColl health_vector exDb2 (fun _ => true) 2 =
       get_active_items_by_ids exDb2 merged) :=
  ⟨by decide, by decide,
    c4_rrf_fusion (fun _ _ _ => some ["mem_ttt", HEALTH_ID, "mem_000000000001"])
      exColl health_vector exDb2 (fun _ => true) 2 (by decide) (by decide)⟩

/-- C9: the sentinel id is never surfaced: it is filtered out of the
fused memory-retrieval candidate set (line 408) and hence of the
resolved items (given that, as the source guarantees by construction,
no stored item carries the sentinel id), out of the skill-name
selection (line 451), and the semantic-deduplication step never touches
an item under the sentinel id (line 521). -/
theorem c9_sentinel_never_returned :
    (∀ (vecQuery : Collection → Vec → Nat → Option (List String)) (coll : Collection)
       (vector : Vec) (db : Db) (m : String → Bool) (k : Nat),
      (∀ it ∈ db.items, it.id ≠ HEALTH_ID) →
      HEALTH_ID ∉ retrieval_merged_ids vecQuery coll vector db m k ∧
      HEALTH_ID ∉ (retrieval_items vecQuery coll vector db m k).map (fun it => it.id)) ∧
    (∀ (results : List (String × ℚ)) (k : Nat) (th : ℚ),
      HEALTH_ID ∉ skill_names_of results k th) ∧
    (∀ results : List (String × ℚ), semantic_dedup_hit results ≠ some HEALTH_ID) := by
  refine ⟨?_, ?_, ?_⟩
  · intro vq coll vector db m k hdb
    have hmerged : HEALTH_ID ∉ retrieval_merged_ids vq coll vector db m k := by
      intro hmem
      have hsub := (merged_ids_of_spec
        (rrf_scores_of (zvec_ranked_of vq coll vector (k * 2))
          ((search_fts db m (k * 2)).map (fun it => it.id))) k).2.1
      have hkeys := hsub HEALTH_ID hmem
      rcases (mem_keys_rrf_scores_of _ _ _).mp hkeys with hz | hf
      · unfold zvec_ranked_of at hz
        cases hq : vq coll vector (k * 2) with
        | none => rw [hq] at hz; cases hz
        | some ids =>
          rw [hq] at hz
          have := (List.mem_filter.mp hz).2
          simp at this
      · rcases List.mem_map.mp hf with ⟨it, hit, hid⟩
        exact hdb it (mem_search_fts hit).1 hid
    refine ⟨hmerged, fun hmem => ?_⟩
    rcases List.mem_map.mp hmem with ⟨it, hit, hid⟩
    exact hmerged (hid ▸ (mem_get_active hit).2.1)
  · intro results k th hmem
    unfold skill_names_of at hmem
    have hsub := (List.take_sublist k _).subset hmem
    have hfold : HEALTH_ID ∉ (results.foldl (fun acc r =>
        if r.1 == HEALTH_ID then acc
        else if r.2 < th then acc
        else if acc.contains r.1 then acc
        else acc ++ [r.1]) []) := by
      refine foldl_inv _ (fun acc => HEALTH_ID ∉ acc) ?_ results [] (by simp)
      intro acc r hacc
      split_ifs with h1 h2 h3
      · exact hacc
      · exact hacc
      · exact hacc
      · intro hmem
        rcases List.mem_append.mp hmem with h | h
        · exact hacc h
        · have hne : r.1 ≠ HEALTH_ID := by simpa using h1
          exact hne (List.mem_singleton.mp h).symm
    exact hfold hsub
  · intro results h
    unfold semantic_dedup_hit at h
    cases hf : results.find? (fun r => r.1 != HEALTH_ID && decide ((92 : ℚ) / 100 < r.2)) with
    | none => rw [hf] at h; cases h
    | some r =>
      rw [hf] at h
      have hp := List.find?_some hf
      have h1 : r.1 = HEALTH_ID := by simpa using h
      have h2 : r.1 ≠ HEALTH_ID := by
        have := (Bool.and_eq_true _ _).mp hp
        simpa using this.1
      exact h2 h1

theorem c9_sentinel_witness :
    (∀ it ∈ exDb2.items, it.id ≠ HEALTH_ID) ∧
    HEALTH_ID ∉ retrieval_merged_ids (fun _ _ _ => some [HEALTH_ID, "mem_000000000001"])
      exColl health_vector exDb2 (fun _ => true) 5 ∧
    HEALTH_ID ∉ (retrieval_items (fun _ _ _ => some [HEALTH_ID, "mem_000000000001"])
      exColl health_vector exDb2 (fun _ => true) 5).map (fun it => it.id) ∧
    HEALTH_ID ∉ skill_names_of [(HEALTH_ID, 1), ("web_search", 1)] 2 (3 / 4) ∧
    semantic_dedup_hit [(HEALTH_ID, 1)] ≠ some HEALTH_ID := by
  have h := c9_sentinel_never_returned
  have hm := h.1 (fun _ _ _ => some [HEALTH_ID, "mem_000000000001"])
    exColl health_vector exDb2 (fun _ => true) 5 (by decide)
  exact ⟨by decide, hm.1, hm.2, h.2.1 _ 2 _, h.2.2 _⟩

/-- C6: a tombstoned item never reaches retrieval output even when its
vector record is still in the index (the vector-query oracle may return
its id freely): keyword search filters to active rows, every resolved
retrieval item is active, and whenever no active item shares the
tombstoned item's text, that text is absent from the resolved items. -/
theorem c6_tombstone_exclusion :
    (∀ (db : Db) (m : String → Bool) (lim : Nat) (it : MemoryItem),
      it ∈ search_fts db m lim → it.status = "active") ∧
    (∀ (vecQuery : Collection → Vec → Nat → Option (List String)) (coll : Collection)
       (vector : Vec) (db : Db) (m : String → Bool) (k : Nat) (it : MemoryItem),
      it ∈ retrieval_items vecQuery coll vector db m k → it.status = "active") ∧
    (∀ (vecQuery : Collection → Vec → Nat → Option (List String)) (coll : Collection)
       (vector : Vec) (db : Db) (m : String → Bool) (k : Nat) (tomb : MemoryItem),
      tomb ∈ db.items → tomb.status = "tombstoned" →
      (∀ a ∈ db.items, a.status = "active" → a.text ≠ tomb.text) →
      tomb.text ∉ (retrieval_items vecQuery coll vector db m k).map (fun it => it.text)) := by
  refine ⟨?_, ?_, ?_⟩
  · intro db m lim it hit
    exact (mem_search_fts hit).2
  · intro vq coll vector db m k it hit
    exact (mem_get_active hit).2.2
  · intro vq coll vector db m k tomb htomb hstat hother hmem
    rcases List.mem_map.mp hmem with ⟨it, hit, htext⟩
    have h := mem_get_active hit
    exact hother it h.1 h.2.2 htext

theorem c6_tombstone_witness :
    exTombItem ∈ exDb2.items ∧ exTombItem.status = "tombstoned" ∧
    (∀ a ∈ exDb2.items, a.status = "active" → a.text ≠ exTombItem.text) ∧
    exTombItem.text ∉ (retrieval_items (fun _ _ _ => some ["mem_ttt", "mem_000000000001"])
      exColl health_vector exDb2 (fun _ => true) 5).map (fun it => it.text) := by
  refine ⟨by decide, rfl, by decide, ?_⟩
  exact c6_tombstone_exclusion.2.2 (fun _ _ _ => some ["mem_ttt", "mem_000000000001"])
    exColl health_vector exDb2 (fun _ => true) 5 exTombItem (by decide) rfl (by decide)

theorem active_filter_pairwise_map {g : MemoryItem → MemoryItem} {l : List MemoryItem}
    (ht : ∀ it, (g it).text = it.text)
    (hs : ∀ it, (g it).status = "active" → it.status = "active")
    (h : (l.filter (fun it => it.status == "active")).Pairwise (fun a b => a.text ≠ b.text)) :
    ((l.map g).filter (fun it => it.status == "active")).Pairwise
      (fun a b => a.text ≠ b.text) := by
  rw [List.filter_map, List.pairwise_map]
  have hsub : (l.filter ((fun it => it.status == "active") ∘ g)).Sublist
      (l.filter (fun it => it.status == "active")) := by
    apply List.monotone_filter_right
    intro a ha
    simp only [Function.comp] at ha ⊢
    exact beq_iff_eq.mpr (hs a (beq_iff_eq.mp ha))
  exact (h.sublist hsub).imp (fun {a b} hab => by rw [ht a, ht b]; exact hab)

theorem ActiveTextUnique_tombstone (db : Db) (contents : List String) (now : Ts)
    (h : ActiveTextUnique db) :
    ActiveTextUnique (tombstone_by_content db contents now) := by
  unfold tombstone_by_content
  split
  · exact h
  · refine active_filter_pairwise_map ?_ ?_ h
    · intro it; split <;> rfl
    · intro it hsact; split at hsact
      · simp at hsact
      · exact hsact

theorem ActiveTextUnique_touch (db : Db) (item_id : String) (now : Ts)
    (h : ActiveTextUnique db) : ActiveTextUnique (touch_item db item_id now) := by
  refine active_filter_pairwise_map ?_ ?_ h
  · intro it; split <;> rfl
  · intro it hsact; split at hsact <;> exact hsact

theorem insert_items_eq (db : Db) (item_id kind text : String) (src : Option String)
    (now : Ts) :
    (insert_memory_item db item_id kind text src now).items =
      if db.items.any (fun it => it.id == item_id) then db.items
      else db.items ++ [inserted_row db item_id kind text src now] := by
  unfold insert_memory_item
  by_cases hany : db.items.any (fun it => it.id == item_id) = true
  · simp only [hany, if_true]
    cases hfind : db.items.find? (fun it => it.id == item_id) <;> simp [hfind]
  · simp only [hany, Bool.false_eq_true, if_false]
    have hall : ∀ x ∈ db.items, ¬(x.id == item_id) = true :=
      fun x hx hpx => hany (List.any_eq_true.mpr ⟨x, hx, hpx⟩)
    have hnone2 : db.items.find? (fun it => it.id == item_id) = none :=
      List.find?_eq_none.mpr hall
    simp [List.find?_append, hnone2, Option.or, inserted_row]

theorem ActiveTextUnique_insert (db : Db) (item_id kind text : String)
    (src : Option String) (now : Ts)
    (hno : item_exists_by_text db text = none)
    (h : ActiveTextUnique db) :
    ActiveTextUnique (insert_memory_item db item_id kind text src now) := by
  have hnone : db.items.find? (fun it => it.text == text && it.status == "active") = none := by
    unfold item_exists_by_text at hno
    cases hfind : db.items.find? (fun it => it.text == text && it.status == "active") with
    | none => rfl
    | some x => rw [hfind] at hno; simp at hno
  have hall := List.find?_eq_none.mp hnone
  unfold ActiveTextUnique
  rw [insert_items_eq]
  by_cases hany : db.items.any (fun it => it.id == item_id) = true
  · rw [if_pos hany]; exact h
  · rw [if_neg hany, List.filter_append]
    have hfrow : ([inserted_row db item_id kind text src now].filter
        (fun it => it.status == "active")) = [inserted_row db item_id kind text src now] := by
      simp [inserted_row]
    rw [hfrow, List.pairwise_append]
    refine ⟨h, List.pairwise_singleton _ _, ?_⟩
    intro a ha b hb
    have hb' : b = inserted_row db item_id kind text src now := by simpa using hb
    subst hb'
    have hfa := List.mem_filter.mp ha
    intro htxt
    apply hall a hfa.1
    have : (inserted_row db item_id kind text src now).text = text := rfl
    rw [this] at htxt
    simp [htxt, beq_iff_eq.mp hfa.2]

theorem ingest_one_touch_eq (e : List String → List Vec)
    (q : Collection → Vec → Nat → Option (List (String × ℚ)))
    (c : Option Collection) (src : Option String) (now : Ts) (fresh : Nat → String)
    (st : Db × Nat) (kind text : String) (i : String)
    (hex : item_exists_by_text st.1 text = some i) :
    ingest_one e q c src now fresh st kind text = (touch_item st.1 i now, st.2) := by
  unfold ingest_one; rw [hex]

theorem ingest_one_dup_eq (e : List String → List Vec)
    (q : Collection → Vec → Nat → Option (List (String × ℚ)))
    (c : Option Collection) (src : Option String) (now : Ts) (fresh : Nat → String)
    (st : Db × Nat) (kind text : String) (d : String)
    (hex : item_exists_by_text st.1 text = none)
    (hdup : dedup_check e q c text = some d) :
    ingest_one e q c src now fresh st kind text = (touch_item st.1 d now, st.2) := by
  unfold ingest_one; rw [hex, hdup]

theorem ingest_one_insert_eq (e : List String → List Vec)
    (q : Collection → Vec → Nat → Option (List (String × ℚ)))
    (c : Option Collection) (src : Option String) (now : Ts) (fresh : Nat → String)
    (st : Db × Nat) (kind text : String)
    (hex : item_exists_by_text st.1 text = none)
    (hdup : dedup_check e q c text = none) :
    ingest_one e q c src now fresh st kind text =
      (insert_memory_item st.1 (fresh st.2) kind text src now, st.2 + 1) := by
  unfold ingest_one; rw [hex, hdup]

theorem ingest_one_preserves (e : List String → List Vec)
    (q : Collection → Vec → Nat → Option (List (String × ℚ)))
    (c : Option Collection) (src : Option String) (now : Ts) (fresh : Nat → String)
    (st : Db × Nat) (kind text : String)
    (h : ActiveTextUnique st.1) :
    ActiveTextUnique (ingest_one e q c src now fresh st kind text).1 := by
  cases hex : item_exists_by_text st.1 text with
  | some i =>
    rw [ingest_one_touch_eq e q c src now fresh st kind text i hex]
    exact ActiveTextUnique_touch _ _ _ h
  | none =>
    cases hdup : dedup_check e q c text with
    | some d =>
      rw [ingest_one_dup_eq e q c src now fresh st kind text d hex hdup]
      exact ActiveTextUnique_touch _ _ _ h
    | none =>
      rw [ingest_one_insert_eq e q c src now fresh st kind text hex hdup]
      exact ActiveTextUnique_insert _ _ _ _ _ _ hex h

theorem apply_updates_preserves (e : List String → List Vec)
    (q : Collection → Vec → Nat → Option (List (String × ℚ)))
    (c : Option Collection) (mem : ExtractedMemoryModel) (src : Option String)
    (now : Ts) (fresh : Nat → String) (st : Db × Nat)
    (h : ActiveTextUnique st.1) :
    ActiveTextUnique (apply_updates e q c mem src now fresh st).1 := by
  unfold apply_updates
  refine foldl_inv _ (fun s : Db × Nat => ActiveTextUnique s.1) ?_ _ _ ?_
  · intro s pair hp
    exact foldl_inv _ (fun s2 : Db × Nat => ActiveTextUnique s2.1)
      (fun s2 t hp2 => ingest_one_preserves e q c src now fresh s2 pair.2 t hp2)
      pair.1 s hp
  · exact ActiveTextUnique_tombstone st.1 mem.obsolete_items now h

theorem run_op_preserves (st : Db × Nat) (op : MemOp)
    (h : ActiveTextUnique st.1) : ActiveTextUnique (run_op st op).1 := by
  cases op with
  | apply e q c mem src now fresh => exact apply_updates_preserves e q c mem src now fresh st h
  | tombstone texts now => exact ActiveTextUnique_tombstone st.1 texts now h
  | touch item_id now => exact ActiveTextUnique_touch st.1 item_id now h

theorem dedup_check_empty (e : List String → List Vec) (c : Option Collection)
    (text : String) :
    dedup_check e (fun _ _ _ => some []) c text = none := by
  unfold dedup_check
  cases c with
  | none => rfl
  | some coll =>
    cases h : (e [text]).head? with
    | none => rfl
    | some v => rfl

theorem apply_updates_single_fact (e : List String → List Vec)
    (q : Collection → Vec → Nat → Option (List (String × ℚ)))
    (c : Option Collection) (src : Option String) (now : Ts) (fresh : Nat → String)
    (db : Db) (n : Nat) (t : String) :
    apply_updates e q c ⟨[], [t], [], [], true⟩ src now fresh (db, n) =
      ingest_one e q c src now fresh (db, n) "fact" t := rfl

/-- C3: (a) every sequence of public memory operations preserves the
at-most-one-active-item-per-text invariant; (b) ingesting the same text
twice through `apply_updates` (with the vector index reporting no near
neighbours, so the semantic-deduplication path finds no hit) leaves
exactly one active item with that text, whose `updated_ts` was refreshed
by the second ingestion via the exact-text `touch` path. -/
theorem c3_unique_active_text :
    (∀ (st : Db × Nat) (ops : List MemOp),
      ActiveTextUnique st.1 → ActiveTextUnique (run_ops st ops).1) ∧
    (∀ (e : List String → List Vec) (c : Option Collection) (src : Option String)
       (db0 : Db) (n0 : Nat) (t : String) (t1 t2 : Ts) (fresh : Nat → String),
      item_exists_by_text db0 t = none →
      (∀ it ∈ db0.items, it.id ≠ fresh n0) →
      ((run_ops (db0, n0)
          [MemOp.apply e (fun _ _ _ => some []) c ⟨[], [t], [], [], true⟩ src t1 fresh,
           MemOp.apply e (fun _ _ _ => some []) c ⟨[], [t], [], [], true⟩ src t2 fresh]).1.items.filter
            (fun it => it.status == "active" && it.text == t)).length = 1 ∧
      (∀ it ∈ (run_ops (db0, n0)
          [MemOp.apply e (fun _ _ _ => some []) c ⟨[], [t], [], [], true⟩ src t1 fresh,
           MemOp.apply e (fun _ _ _ => some []) c ⟨[], [t], [], [], true⟩ src t2 fresh]).1.items,
        it.status = "active" → it.text = t → it.updated_ts = t2 ∧ it.id = fresh n0)) := by
  constructor
  · intro st ops h
    exact foldl_inv run_op (fun s : Db × Nat => ActiveTextUnique s.1)
      (fun s op hp => run_op_preserves s op hp) ops st h
  · intro e c src db0 n0 t t1 t2 fresh hex hfresh
    have hdup := dedup_check_empty e c t
    have hnone : db0.items.find? (fun it => it.text == t && it.status == "active") = none := by
      unfold item_exists_by_text at hex
      cases hfind : db0.items.find? (fun it => it.text == t && it.status == "active") with
      | none => rfl
      | some x => rw [hfind] at hex; simp at hex
    have hall := List.find?_eq_none.mp hnone
    -- first operation: exact-text miss, dedup miss, insert a fresh row
    have h1 : run_op (db0, n0)
        (MemOp.apply e (fun _ _ _ => some []) c ⟨[], [t], [], [], true⟩ src t1 fresh) =
        (insert_memory_item db0 (fresh n0) "fact" t src t1, n0 + 1) := by
      show apply_updates e (fun _ _ _ => some []) c ⟨[], [t], [], [], true⟩ src t1 fresh
          (db0, n0) = _
      rw [apply_updates_single_fact,
        ingest_one_insert_eq e (fun _ _ _ => some []) c src t1 fresh (db0, n0) "fact" t hex hdup]
    have hins := insert_fresh_eq db0 (fresh n0) "fact" t src t1 hfresh
    -- the inserted database
    have hitems1 : (insert_memory_item db0 (fresh n0) "fact" t src t1).items =
        db0.items ++ [inserted_row db0 (fresh n0) "fact" t src t1] := by rw [hins]
    -- second operation: exact-text hit on the fresh row, touch it
    have hex2 : item_exists_by_text (insert_memory_item db0 (fresh n0) "fact" t src t1) t =
        some (fresh n0) := by
      unfold item_exists_by_text
      rw [hitems1, List.find?_append, hnone]
      simp [inserted_row]
    have h2 : run_op (insert_memory_item db0 (fresh n0) "fact" t src t1, n0 + 1)
        (MemOp.apply e (fun _ _ _ => some []) c ⟨[], [t], [], [], true⟩ src t2 fresh) =
        (touch_item (insert_memory_item db0 (fresh n0) "fact" t src t1) (fresh n0) t2,
          n0 + 1) := by
      show apply_updates e (fun _ _ _ => some []) c ⟨[], [t], [], [], true⟩ src t2 fresh
          (insert_memory_item db0 (fresh n0) "fact" t src t1, n0 + 1) = _
      rw [apply_updates_single_fact,
        ingest_one_touch_eq e (fun _ _ _ => some []) c src t2 fresh _ "fact" t (fresh n0) hex2]
    have hrun : (run_ops (db0, n0)
        [MemOp.apply e (fun _ _ _ => some []) c ⟨[], [t], [], [], true⟩ src t1 fresh,
         MemOp.apply e (fun _ _ _ => some []) c ⟨[], [t], [], [], true⟩ src t2 fresh]).1 =
        touch_item (insert_memory_item db0 (fresh n0) "fact" t src t1) (fresh n0) t2 := by
      unfold run_ops
      simp only [List.foldl]
      rw [h1, h2]
    -- the final items list
    have hfinal : (touch_item (insert_memory_item db0 (fresh n0) "fact" t src t1)
        (fresh n0) t2).items =
        db0.items ++
          [{ inserted_row db0 (fresh n0) "fact" t src t1 with updated_ts := t2 }] := by
      have hproj : (touch_item (insert_memory_item db0 (fresh n0) "fact" t src t1)
          (fresh n0) t2).items =
          (insert_memory_item db0 (fresh n0) "fact" t src t1).items.map
            (fun it => if it.id == fresh n0 then { it with updated_ts := t2 } else it) := rfl
      rw [hproj, hitems1, List.map_append]
      congr 1
      · apply map_self_of_fixes
        intro it hit
        have : (it.id == fresh n0) = false := by simp [hfresh it hit]
        simp [this]
      · simp [inserted_row]
    constructor
    · rw [hrun, hfinal, List.filter_append]
      have hleft : db0.items.filter (fun it => it.status == "active" && it.text == t) = [] := by
        rw [List.filter_eq_nil_iff]
        intro a ha hp
        have hp' := (Bool.and_eq_true _ _).mp hp
        exact hall a ha (by rw [Bool.and_eq_true]; exact ⟨hp'.2, hp'.1⟩)
      rw [hleft]
      simp [inserted_row]
    · rw [hrun, hfinal]
      intro it hit hact htxt
      rcases List.mem_append.mp hit with hmem | hmem
      · exfalso
        apply hall it hmem
        rw [Bool.and_eq_true]
        exact ⟨beq_iff_eq.mpr htxt, beq_iff_eq.mpr hact⟩
      · have : it = { inserted_row db0 (fresh n0) "fact" t src t1 with updated_ts := t2 } := by
          simpa using hmem
        subst this
        exact ⟨rfl, rfl⟩

theorem c3_unique_active_witness :
    ActiveTextUnique (run_ops (exEmptyDb, 0)
      [MemOp.apply exEmbed (fun _ _ _ => some []) (some exColl)
        ⟨[], ["User name is Chetan."], [], [], true⟩ none 1 (fun n => toString n),
       MemOp.apply exEmbed (fun _ _ _ => some []) (some exColl)
        ⟨[], ["User name is Chetan."], [], [], true⟩ none 2 (fun n => toString n)]).1 ∧
    ((run_ops (exEmptyDb, 0)
      [MemOp.apply exEmbed (fun _ _ _ => some []) (some exColl)
        ⟨[], ["User name is Chetan."], [], [], true⟩ none 1 (fun n => toString n),
       MemOp.apply exEmbed (fun _ _ _ => some []) (some exColl)
        ⟨[], ["User name is Chetan."], [], [], true⟩ none 2 (fun n => toString n)]).1.items.filter
        (fun it => it.status == "active" && it.text == "User name is Chetan.")).length = 1 ∧
    (∀ it ∈ (run_ops (exEmptyDb, 0)
      [MemOp.apply exEmbed (fun _ _ _ => some []) (some exColl)
        ⟨[], ["User name is Chetan."], [], [], true⟩ none 1 (fun n => toString n),
       MemOp.apply exEmbed (fun _ _ _ => some []) (some exColl)
        ⟨[], ["User name is Chetan."], [], [], true⟩ none 2 (fun n => toString n)]).1.items,
      it.status = "active" → it.text = "User name is Chetan." →
        it.updated_ts = 2 ∧ it.id = toString 0) := by
  have hmain := c3_unique_active_text
  have hscen := hmain.2 exEmbed (some exColl) none exEmptyDb 0 "User name is Chetan."
    1 2 (fun n => toString n) (by decide) (by decide)
  exact ⟨hmain.1 (exEmptyDb, 0) _ (by unfold ActiveTextUnique; decide), hscen.1, hscen.2⟩

theorem mem_fetch_pending {db : Db} {b : Nat} {it : MemoryItem}
    (h : it ∈ fetch_pending_items db b) :
    it ∈ db.items ∧ it.indexed = false ∧ it.status = "active" := by
  unfold fetch_pending_items at h
  have h1 := (List.take_sublist b _).subset h
  rcases List.mem_filter.mp h1 with ⟨hm, hp⟩
  have hp' := (Bool.and_eq_true _ _).mp hp
  exact ⟨hm, by simpa using hp'.1, beq_iff_eq.mp hp'.2⟩

theorem mem_ids_upsertOne {c : Collection} {d : ZvecDoc} {a : String}
    (h : a ∈ (c.upsertOne d).ids) : a ∈ c.ids ∨ a = d.id := by
  unfold Collection.upsertOne Collection.ids at h
  split at h
  · rcases List.mem_map.mp h with ⟨e, he, ha⟩
    rcases List.mem_map.mp he with ⟨e0, he0, hee⟩
    by_cases hc : (e0.id == d.id) = true
    · right
      rw [← ha, ← hee, if_pos hc]
    · left
      rw [← ha, ← hee, if_neg hc]
      exact List.mem_map.mpr ⟨e0, he0, rfl⟩
  · rw [List.map_append] at h
    rcases List.mem_append.mp h with h | h
    · exact Or.inl h
    · right; simpa using h

theorem mem_ids_upsert {ds : List ZvecDoc} : ∀ {c : Collection} {a : String},
    a ∈ (c.upsert ds).ids → a ∈ c.ids ∨ a ∈ ds.map (fun d => d.id) := by
  induction ds with
  | nil => intro c a h; exact Or.inl h
  | cons d rest ih =>
    intro c a h
    rcases @ih (c.upsertOne d) a h with h' | h'
    · rcases mem_ids_upsertOne h' with h'' | h''
      · exact Or.inl h''
      · right; simp [h'']
    · right; simp [h']

theorem mem_ids_ensure {c : Collection} {a : String}
    (h : a ∈ (ensure_health_doc c).ids) : a ∈ c.ids ∨ a = HEALTH_ID := by
  unfold ensure_health_doc at h
  split at h
  · exact Or.inl h
  · rcases mem_ids_upsert h with h | h
    · exact Or.inl h
    · right; simpa using h

/-- C10: every row returned by `fetch_pending_items` has `indexed = 0`
and `status = 'active'` (the SQL `WHERE` clause, line 277); hence a
tombstoned item is never upserted into the vector index by
`sync_pending_memories` — the ids flowing into the upsert are drawn
from the pending rows only (plus the sentinel), so a tombstoned item's
id never newly appears in the collection. -/
theorem c10_pending_only_active_unindexed :
    (∀ (db : Db) (b : Nat) (it : MemoryItem), it ∈ fetch_pending_items db b →
      it.indexed = false ∧ it.status = "active") ∧
    (∀ (e : List String → List Vec) (ok : Bool) (db : Db) (coll coll' : Collection)
       (b : Nat) (tomb : MemoryItem),
      tomb ∈ db.items → tomb.status = "tombstoned" →
      (db.items.map (fun it => it.id)).Nodup →
      tomb.id ≠ HEALTH_ID → tomb.id ∉ coll.ids →
      (sync_pending_memories e ok db (some coll) b).2 = some coll' →
      tomb.id ∉ coll'.ids) := by
  constructor
  · intro db b it hit
    have h := mem_fetch_pending hit
    exact ⟨h.2.1, h.2.2⟩
  · intro e ok db coll coll' b tomb htomb hstat hnodup hnh hnc hsync
    simp only [sync_pending_memories] at hsync
    split at hsync
    · rw [← Option.some_inj.mp hsync]; exact hnc
    · split at hsync
      · rw [← Option.some_inj.mp hsync]; exact hnc
      · split at hsync
        · rw [← Option.some_inj.mp hsync]
          intro hmem
          rcases mem_ids_upsert hmem with hins | hdocs
          · rcases mem_ids_ensure hins with h | h
            · exact hnc h
            · exact hnh h
          · rcases List.mem_map.mp hdocs with ⟨d, hd, hdid⟩
            rcases List.mem_map.mp hd with ⟨p, hp, hpd⟩
            have hzip := List.of_mem_zip hp
            have hp1 : p.1 = tomb.id := by rw [← hdid, ← hpd]
            rcases List.mem_map.mp (hp1 ▸ hzip.1) with ⟨q, hq, hqid⟩
            have hqdb := mem_fetch_pending hq
            have hqeq : q = tomb :=
              List.inj_on_of_nodup_map hnodup hqdb.1 htomb hqid
            rw [hqeq] at hqdb
            rw [hstat] at hqdb
            exact absurd hqdb.2.2 (by decide)
        · rw [← Option.some_inj.mp hsync]; exact hnc

theorem c10_pending_witness :
    exTombItem ∈ exDb2.items ∧ exTombItem.status = "tombstoned" ∧
    (exDb2.items.map (fun it => it.id)).Nodup ∧
    exTombItem.id ≠ HEALTH_ID ∧ exTombItem.id ∉ exColl.ids ∧
    (sync_pending_memories exEmbed true exDb2 (some exColl) 256).2 =
      some ((sync_pending_memories exEmbed true exDb2 (some exColl) 256).2.getD ⟨[]⟩) ∧
    exTombItem.id ∉
      ((sync_pending_memories exEmbed true exDb2 (some exColl) 256).2.getD ⟨[]⟩).ids ∧
    (exItem ∈ fetch_pending_items exDb2 256 →
      exItem.indexed = false ∧ exItem.status = "active") := by
  have h := c10_pending_only_active_unindexed
  refine ⟨by decide, rfl, by decide, by decide, by decide, rfl, ?_, ?_⟩
  · exact h.2 exEmbed true exDb2 exColl _ 256 exTombItem (by decide) rfl (by decide)
      (by decide) (by decide) rfl
  · exact fun hm => h.1 exDb2 256 exItem hm

end INDRA
